import Mathlib

/-!
Verification development for the Goa citizen-services portal.

The definitions below are a shallow embedding of the source of the repository:
the relational schema and row-level policies of the migration file, the
officer-dashboard status update (`OfficerDashboard.tsx`), the citizen
submission flow (`ApplyService.tsx`), the role-routing entry point
(`Index.tsx` and the role selector page), the signup trigger
(`handle_new_user` in the migration), and the admin statistics
computation (`fetchStats` in the admin dashboard page).
-/

namespace Portal

/-- Enum `application_status` from the migration. -/
inductive AppStatus
  | pending
  | under_review
  | approved
  | rejected
  | additional_info_required
deriving DecidableEq, Repr

/-- Enum `payment_status` from the migration. -/
inductive PayStatus
  | pending
  | completed
  | failed
  | refunded
deriving DecidableEq, Repr

/-- Enum `app_role` from the migration. -/
inductive Role
  | citizen
  | officer
  | admin
deriving DecidableEq, Repr

/-- A row of the `applications` table (the columns the client code touches). -/
structure AppRow where
  id : String
  citizen_id : String
  service_id : String
  status : AppStatus
  remarks : Option String := none
  completed_on : Option Nat := none
deriving DecidableEq, Repr

/-- A row of the `services` table. -/
structure ServiceRow where
  id : String
  department_id : String
  name : String
  fee : ℚ
  required_documents : List String
  processing_time_days : Nat
  is_active : Bool
deriving DecidableEq, Repr

/-- A row of the `documents` table. -/
structure DocumentRow where
  application_id : String
  file_name : String
  file_url : String
  doc_type : String
deriving DecidableEq, Repr

/-- A row of the `payments` table. -/
structure PaymentRow where
  application_id : String
  amount : ℚ
  status : PayStatus
  payment_method : Option String := none
  paid_at : Option Nat := none
deriving DecidableEq, Repr

/-- A row of the `profiles` table. -/
structure ProfileRow where
  id : String
  email : String
  full_name : String
deriving DecidableEq, Repr

/-! ## Officer dashboard: `handleUpdateStatus` -/

/-- JS `remarks[appId] || null`: a missing or empty remarks field becomes null. -/
def remarksOrNull (field : Option String) : Option String :=
  match field with
  | some s => if s = "" then none else some s
  | none => none

/-- Function `handleUpdateStatus` in `OfficerDashboard.tsx`: builds `updateData` with the
new status and the remarks field (empty/absent coerced to null), and adds
`completed_on = now` exactly when the new status is approved or rejected;
otherwise `completed_on` is not part of the update and keeps its stored value. -/
def handleUpdateStatus (now : Nat) (field : Option String) (newStatus : AppStatus)
    (app : AppRow) : AppRow :=
  { app with
    status := newStatus
    remarks := remarksOrNull field
    completed_on :=
      if newStatus = AppStatus.approved ∨ newStatus = AppStatus.rejected then some now
      else app.completed_on }

/-- The `applications` insert issued by `ApplyService.tsx`: only `citizen_id`,
`service_id` and `status = pending` are supplied; `remarks` and `completed_on`
take the schema defaults (null). -/
def mkPendingApp (uid sid appId : String) : AppRow :=
  { id := appId, citizen_id := uid, service_id := sid, status := AppStatus.pending }

/-- Apply `f` to the rows whose id matches, as the `update ... eq` call does. -/
def updateById (apps : List AppRow) (appId : String) (f : AppRow → AppRow) : List AppRow :=
  apps.map (fun a => if a.id = appId then f a else a)

/-- States of the `applications` table reachable through the writes of the client:
citizen submissions insert a pending row, and the two officer-dashboard
buttons call `handleUpdateStatus` only with `approved` or `rejected`. -/
inductive Reachable : List AppRow → Prop
  | init : Reachable []
  | submit (s : List AppRow) (uid sid appId : String) :
      Reachable s → Reachable (s ++ [mkPendingApp uid sid appId])
  | officerDecision (s : List AppRow) (appId : String) (now : Nat)
      (field : Option String) (ns : AppStatus)
      (hns : ns = AppStatus.approved ∨ ns = AppStatus.rejected) :
      Reachable s → Reachable (updateById s appId (handleUpdateStatus now field ns))

/-- The invariant of claim C1: `completed_on` is non-null exactly on terminal rows. -/
def completedInv (apps : List AppRow) : Prop :=
  ∀ a ∈ apps, (a.completed_on ≠ none ↔ (a.status = AppStatus.approved ∨ a.status = AppStatus.rejected))

/-- C1: an officer-dashboard update into approved/rejected sets `completed_on`
to the current instant; an update into any other status leaves `completed_on`
null whenever it was null before; and every reachable table state satisfies:
`completed_on` is non-null iff the status is approved or rejected. -/
theorem completed_on_iff_terminal :
    (∀ (now : Nat) (field : Option String) (ns : AppStatus) (app : AppRow),
      (ns = AppStatus.approved ∨ ns = AppStatus.rejected) →
      (handleUpdateStatus now field ns app).completed_on = some now) ∧
    (∀ (now : Nat) (field : Option String) (ns : AppStatus) (app : AppRow),
      ¬(ns = AppStatus.approved ∨ ns = AppStatus.rejected) →
      app.completed_on = none →
      (handleUpdateStatus now field ns app).completed_on = none) ∧
    (∀ s, Reachable s → completedInv s) := by
  refine ⟨?_, ?_, ?_⟩
  · intro now field ns app h
    simp [handleUpdateStatus, h]
  · intro now field ns app h happ
    simp [handleUpdateStatus, h, happ]
  · intro s h
    induction h with
    | init => intro a ha; simp at ha
    | submit s uid sid appId _ ih =>
        intro a ha
        rcases List.mem_append.mp ha with h1 | h1
        · exact ih a h1
        · simp only [List.mem_singleton] at h1
          subst h1
          simp [mkPendingApp]
    | officerDecision s appId now field ns hns _ ih =>
        intro a ha
        simp only [updateById, List.mem_map] at ha
        obtain ⟨b, hb, hba⟩ := ha
        by_cases hid : b.id = appId
        · rw [if_pos hid] at hba
          subst hba
          rcases hns with h | h <;> subst h <;> simp [handleUpdateStatus]
        · rw [if_neg hid] at hba
          subst hba
          exact ih b hb

/-- A concrete pending row used by witnesses. -/
def appW : AppRow := mkPendingApp "u1" "s1" "a1"

/-- Witness for C1 at concrete inputs. -/
theorem completed_on_iff_terminal_witness :
    (handleUpdateStatus 7 (some "ok") AppStatus.approved appW).completed_on = some 7 ∧
    (handleUpdateStatus 7 none AppStatus.under_review appW).completed_on = none ∧
    completedInv [] :=
  ⟨completed_on_iff_terminal.1 7 (some "ok") AppStatus.approved appW (Or.inl rfl),
   completed_on_iff_terminal.2.1 7 none AppStatus.under_review appW (by simp) rfl,
   completed_on_iff_terminal.2.2 [] Reachable.init⟩

/-- C9: an officer update whose remarks field is absent or empty writes
`remarks` as null, whatever was stored before; a non-empty field is written
verbatim. -/
theorem remarks_overwrite :
    (∀ (now : Nat) (field : Option String) (ns : AppStatus) (app : AppRow),
      (field = none ∨ field = some "") →
      (handleUpdateStatus now field ns app).remarks = none) ∧
    (∀ (now : Nat) (s : String) (ns : AppStatus) (app : AppRow),
      s ≠ "" → (handleUpdateStatus now (some s) ns app).remarks = some s) := by
  constructor
  · intro now field ns app h
    rcases h with h | h <;> subst h <;> simp [handleUpdateStatus, remarksOrNull]
  · intro now s ns app h
    simp [handleUpdateStatus, remarksOrNull, h]

/-- A row with stored remarks, used by the C9 witness. -/
def appR : AppRow :=
  { id := "a2", citizen_id := "u1", service_id := "s1",
    status := AppStatus.pending, remarks := some "old note" }

/-- Witness for C9 at concrete inputs. -/
theorem remarks_overwrite_witness :
    (handleUpdateStatus 3 (some "") AppStatus.approved appR).remarks = none ∧
    (handleUpdateStatus 3 (some "done") AppStatus.approved appR).remarks = some "done" :=
  ⟨remarks_overwrite.1 3 (some "") AppStatus.approved appR (Or.inr rfl),
   remarks_overwrite.2 3 "done" AppStatus.approved appR (by decide)⟩

/-! ## Citizen submission: `handleSubmit` in `ApplyService.tsx`

The supabase calls are modelled by a success oracle `ok : Nat → Bool` giving
the outcome of the n-th network write (a `throw` on failure aborts the `try`
block), and the external `getPublicUrl` service by a function argument
`urlOf`.  The committed writes are returned as an ordered event list. -/

/-- A committed backend write issued during submission. -/
inductive WriteEv
  | insertApplication (row : AppRow)
  | uploadFile (path : String)
  | insertDocument (row : DocumentRow)
  | insertPayment (row : PaymentRow)
deriving DecidableEq, Repr

/-- JS `file.name.split(".").pop()`. -/
def fileExt (name : String) : String := (name.splitOn ".").getLastD ""

/-- A selected file (only its name matters to the client code). -/
structure FileInfo where
  name : String
deriving DecidableEq, Repr

/-- Lookup in the `files` state object of `ApplyService.tsx`. -/
def lookupFile (files : List (String × FileInfo)) (d : String) : Option FileInfo :=
  (files.find? (fun e => e.1 = d)).map (fun e => e.2)

/-- The check `service.required_documents.filter(doc => !files[doc])`. -/
def missingDocs (service : ServiceRow) (files : List (String × FileInfo)) : List String :=
  service.required_documents.filter (fun d => (lookupFile files d).isNone)

/-- The storage path `user.id/application.id/docType.fileExt`. -/
def docPath (uid appId docType : String) (f : FileInfo) : String :=
  uid ++ "/" ++ appId ++ "/" ++ docType ++ "." ++ fileExt f.name

/-- The payment row inserted at the end of submission: mocked as completed,
amount equal to the service fee. -/
def mkPayment (appId : String) (fee : ℚ) (now : Nat) : PaymentRow :=
  { application_id := appId, amount := fee, status := PayStatus.completed,
    payment_method := some "mock", paid_at := some now }

/-- The documents loop of `handleSubmit`: for each entry of `files`, upload to
the bucket (write `i`), then insert the document row (write `i+1`); a failure
throws, aborting the rest of the loop.  Returns the committed events, the
thrown error if any, and the next write index. -/
def docLoop (ok : Nat → Bool) (urlOf : String → String) (uid appId : String) :
    Nat → List (String × FileInfo) → List WriteEv × Option String × Nat
  | i, [] => ([], none, i)
  | i, (docType, f) :: rest =>
    let path := docPath uid appId docType f
    if ok i then
      if ok (i + 1) then
        let r := docLoop ok urlOf uid appId (i + 2) rest
        (WriteEv.uploadFile path ::
           WriteEv.insertDocument
             { application_id := appId, file_name := f.name,
               file_url := urlOf path, doc_type := docType } :: r.1,
         r.2.1, r.2.2)
      else
        ([WriteEv.uploadFile path], some "document insert failed", i + 2)
    else
      ([], some "upload failed", i + 1)

/-- Function `handleSubmit` in `ApplyService.tsx`: client-side validation of required
documents, then the application insert (write 0), the documents loop, and the
payment insert, each attempted only after the previous write succeeded. -/
def handleSubmit (ok : Nat → Bool) (urlOf : String → String) (service : ServiceRow)
    (files : List (String × FileInfo)) (user : Option String) (appId : String)
    (now : Nat) : List WriteEv × Option String :=
  if (missingDocs service files).length > 0 then
    ([], some ("Please upload: " ++ String.intercalate ", " (missingDocs service files)))
  else
    match user with
    | none => ([], some "Not authenticated")
    | some uid =>
      if ok 0 then
        match docLoop ok urlOf uid appId 1 files with
        | (evs, some e, _) =>
            (WriteEv.insertApplication (mkPendingApp uid service.id appId) :: evs, some e)
        | (evs, none, j) =>
            if ok j then
              (WriteEv.insertApplication (mkPendingApp uid service.id appId) ::
                 evs ++ [WriteEv.insertPayment (mkPayment appId service.fee now)], none)
            else
              (WriteEv.insertApplication (mkPendingApp uid service.id appId) :: evs,
               some "payment insert failed")
      else
        ([], some "application insert failed")

/-- The two events produced for one `files` entry on the fully successful path. -/
def entryEvents (urlOf : String → String) (uid appId : String)
    (e : String × FileInfo) : List WriteEv :=
  [WriteEv.uploadFile (docPath uid appId e.1 e.2),
   WriteEv.insertDocument
     { application_id := appId, file_name := e.2.name,
       file_url := urlOf (docPath uid appId e.1 e.2), doc_type := e.1 }]

/-- All document events of a fully successful submission, in `files` order. -/
def docEvents (urlOf : String → String) (uid appId : String)
    (files : List (String × FileInfo)) : List WriteEv :=
  files.flatMap (entryEvents urlOf uid appId)

/-- The full ordered write trace of a successful submission: the application
insert first, then upload/insert pairs per document, the payment insert last. -/
def submitTrace (urlOf : String → String) (service : ServiceRow)
    (files : List (String × FileInfo)) (uid appId : String) (now : Nat) : List WriteEv :=
  WriteEv.insertApplication (mkPendingApp uid service.id appId) ::
    docEvents urlOf uid appId files ++
      [WriteEv.insertPayment (mkPayment appId service.fee now)]

/-- C3: when at least one required document is missing, submission is rejected
before any write: no event is committed for any outcome of the backend, and
the error names exactly the missing labels. -/
theorem submit_missing_blocks (ok : Nat → Bool) (urlOf : String → String)
    (service : ServiceRow) (files : List (String × FileInfo)) (user : Option String)
    (appId : String) (now : Nat)
    (h : missingDocs service files ≠ []) :
    handleSubmit ok urlOf service files user appId now
      = ([], some ("Please upload: " ++ String.intercalate ", " (missingDocs service files))) := by
  have hl : (missingDocs service files).length > 0 := List.length_pos.mpr h
  simp [handleSubmit, hl]

/-- A concrete service requiring two documents (from the seeded catalog shape). -/
def svcB : ServiceRow :=
  { id := "svc1", department_id := "dep1", name := "Residence Certificate",
    fee := 50, required_documents := ["D1", "D2"],
    processing_time_days := 7, is_active := true }

/-- Only the first required document is supplied. -/
def filesB : List (String × FileInfo) := [("D1", ⟨"d1.pdf"⟩)]

/-- Witness for C3: supplying only D1 out of [D1, D2] blocks the submission
with an error naming exactly D2. -/
theorem submit_missing_blocks_witness :
    missingDocs svcB filesB ≠ [] ∧
    handleSubmit (fun _ => true) (fun p => p) svcB filesB (some "u1") "a1" 0
      = ([], some "Please upload: D2") :=
  ⟨by decide,
   by
    have h := submit_missing_blocks (fun _ => true) (fun p => p) svcB filesB
      (some "u1") "a1" 0 (by decide)
    simpa [show missingDocs svcB filesB = ["D2"] from by decide] using h⟩

/-- Event is the application insert. -/
def WriteEv.isApplicationInsert : WriteEv → Bool
  | .insertApplication _ => true
  | _ => false

/-- Event is a document-row insert. -/
def WriteEv.isDocumentInsert : WriteEv → Bool
  | .insertDocument _ => true
  | _ => false

/-- Event is the payment insert. -/
def WriteEv.isPaymentInsert : WriteEv → Bool
  | .insertPayment _ => true
  | _ => false

lemma docEvents_nil (urlOf : String → String) (uid appId : String) :
    docEvents urlOf uid appId [] = [] := rfl

lemma docEvents_cons (urlOf : String → String) (uid appId : String)
    (e : String × FileInfo) (rest : List (String × FileInfo)) :
    docEvents urlOf uid appId (e :: rest)
      = entryEvents urlOf uid appId e ++ docEvents urlOf uid appId rest := by
  simp [docEvents]

lemma docLoop_allOk (urlOf : String → String) (uid appId : String) :
    ∀ (files : List (String × FileInfo)) (i : Nat),
      docLoop (fun _ => true) urlOf uid appId i files
        = (docEvents urlOf uid appId files, none, i + 2 * files.length) := by
  intro files
  induction files with
  | nil => intro i; simp [docLoop, docEvents]
  | cons e rest ih =>
      intro i
      obtain ⟨d, f⟩ := e
      simp only [docLoop, if_true, ih (i + 2), docEvents_cons, entryEvents, List.length_cons,
        Prod.mk.injEq]
      refine ⟨?_, ?_, ?_⟩
      · simp
      · trivial
      · omega

lemma docLoop_take (ok : Nat → Bool) (urlOf : String → String) (uid appId : String) :
    ∀ (files : List (String × FileInfo)) (i : Nat),
      ∃ n, n ≤ (docEvents urlOf uid appId files).length ∧
        (docLoop ok urlOf uid appId i files).1 = (docEvents urlOf uid appId files).take n := by
  intro files
  induction files with
  | nil => intro i; exact ⟨0, Nat.zero_le _, by simp [docLoop]⟩
  | cons e rest ih =>
      intro i
      obtain ⟨d, f⟩ := e
      by_cases h1 : ok i
      · by_cases h2 : ok (i + 1)
        · obtain ⟨n, hn, he⟩ := ih (i + 2)
          refine ⟨n + 2, ?_, ?_⟩
          · simp only [docEvents_cons, entryEvents, List.length_append, List.length_cons,
              List.length_nil]
            omega
          · simp [docLoop, h1, h2, docEvents_cons, entryEvents, he]
        · refine ⟨1, ?_, ?_⟩
          · simp [docEvents_cons, entryEvents]
          · simp [docLoop, h1, h2, docEvents_cons, entryEvents]
      · exact ⟨0, Nat.zero_le _, by simp [docLoop, h1]⟩

lemma docLoop_err_none (ok : Nat → Bool) (urlOf : String → String) (uid appId : String) :
    ∀ (files : List (String × FileInfo)) (i : Nat),
      (docLoop ok urlOf uid appId i files).2.1 = none →
      (docLoop ok urlOf uid appId i files).1 = docEvents urlOf uid appId files := by
  intro files
  induction files with
  | nil => intro i _; simp [docLoop, docEvents]
  | cons e rest ih =>
      intro i h
      obtain ⟨d, f⟩ := e
      by_cases h1 : ok i
      · by_cases h2 : ok (i + 1)
        · simp only [docLoop, h1, h2, if_true] at h ⊢
          simp [docEvents_cons, entryEvents, ih (i + 2) h]
        · simp [docLoop, h1, h2] at h
      · simp [docLoop, h1] at h

lemma docEvents_counts (urlOf : String → String) (uid appId : String) :
    ∀ (files : List (String × FileInfo)),
      (docEvents urlOf uid appId files).countP WriteEv.isApplicationInsert = 0 ∧
      (docEvents urlOf uid appId files).countP WriteEv.isPaymentInsert = 0 ∧
      (docEvents urlOf uid appId files).countP WriteEv.isDocumentInsert = files.length := by
  intro files
  induction files with
  | nil => simp [docEvents]
  | cons e rest ih =>
      obtain ⟨d, f⟩ := e
      simp [docEvents_cons, entryEvents, List.countP_append, List.countP_cons,
        WriteEv.isApplicationInsert, WriteEv.isPaymentInsert, WriteEv.isDocumentInsert,
        ih.1, ih.2.1, ih.2.2]

lemma flatMap_mem_decomp {α β : Type} (g : α → List β) :
    ∀ (l : List α) (e : α), e ∈ l → ∃ pre post, l.flatMap g = pre ++ g e ++ post := by
  intro l
  induction l with
  | nil => intro e he; simp at he
  | cons a rest ih =>
      intro e he
      rcases List.mem_cons.mp he with h | h
      · subst h; exact ⟨[], rest.flatMap g, by simp⟩
      · obtain ⟨pre, post, hp⟩ := ih e h
        exact ⟨g a ++ pre, post, by simp [hp]⟩

lemma missing_nil_of_all (service : ServiceRow) (files : List (String × FileInfo))
    (hall : ∀ d ∈ service.required_documents, (lookupFile files d).isSome = true) :
    missingDocs service files = [] := by
  simp only [missingDocs]
  rw [List.filter_eq_nil_iff]
  intro d hd
  obtain ⟨f, hf⟩ := Option.isSome_iff_exists.mp (hall d hd)
  simp [hf]

lemma lookupFile_mem (files : List (String × FileInfo)) (d : String) (f : FileInfo)
    (h : lookupFile files d = some f) : (d, f) ∈ files := by
  unfold lookupFile at h
  cases hf : files.find? (fun e => e.1 = d) with
  | none => rw [hf] at h; simp at h
  | some p =>
      rw [hf] at h
      have hval : p.2 = f := by simpa using h
      have hmem := List.mem_of_find?_eq_some hf
      have hpred := List.find?_some hf
      simp only [decide_eq_true_eq] at hpred
      have hdf : (d, f) = p := Prod.ext hpred.symm hval.symm
      rw [hdf]
      exact hmem

lemma handleSubmit_eq (ok : Nat → Bool) (urlOf : String → String) (service : ServiceRow)
    (files : List (String × FileInfo)) (uid appId : String) (now : Nat)
    (hm : missingDocs service files = []) :
    handleSubmit ok urlOf service files (some uid) appId now
      = if ok 0 then
          match docLoop ok urlOf uid appId 1 files with
          | (evs, some e, _) =>
              (WriteEv.insertApplication (mkPendingApp uid service.id appId) :: evs, some e)
          | (evs, none, j) =>
              if ok j then
                (WriteEv.insertApplication (mkPendingApp uid service.id appId) ::
                   evs ++ [WriteEv.insertPayment (mkPayment appId service.fee now)], none)
              else
                (WriteEv.insertApplication (mkPendingApp uid service.id appId) :: evs,
                 some "payment insert failed")
        else ([], some "application insert failed") := by
  simp [handleSubmit, hm]

lemma handleSubmit_app_fail (ok : Nat → Bool) (urlOf : String → String)
    (service : ServiceRow) (files : List (String × FileInfo)) (uid appId : String)
    (now : Nat) (hm : missingDocs service files = []) (h0 : ok 0 = false) :
    handleSubmit ok urlOf service files (some uid) appId now
      = ([], some "application insert failed") := by
  rw [handleSubmit_eq _ _ _ _ _ _ _ hm, if_neg (by simp [h0])]

lemma handleSubmit_doc_err (ok : Nat → Bool) (urlOf : String → String)
    (service : ServiceRow) (files : List (String × FileInfo)) (uid appId : String)
    (now : Nat) (evs : List WriteEv) (e : String) (j : Nat)
    (hm : missingDocs service files = []) (h0 : ok 0 = true)
    (hE : docLoop ok urlOf uid appId 1 files = (evs, some e, j)) :
    handleSubmit ok urlOf service files (some uid) appId now
      = (WriteEv.insertApplication (mkPendingApp uid service.id appId) :: evs, some e) := by
  rw [handleSubmit_eq _ _ _ _ _ _ _ hm, if_pos h0, hE]

lemma handleSubmit_doc_ok (ok : Nat → Bool) (urlOf : String → String)
    (service : ServiceRow) (files : List (String × FileInfo)) (uid appId : String)
    (now : Nat) (evs : List WriteEv) (j : Nat)
    (hm : missingDocs service files = []) (h0 : ok 0 = true)
    (hE : docLoop ok urlOf uid appId 1 files = (evs, none, j)) :
    handleSubmit ok urlOf service files (some uid) appId now
      = if ok j then
          (WriteEv.insertApplication (mkPendingApp uid service.id appId) ::
             evs ++ [WriteEv.insertPayment (mkPayment appId service.fee now)], none)
        else
          (WriteEv.insertApplication (mkPendingApp uid service.id appId) :: evs,
           some "payment insert failed") := by
  rw [handleSubmit_eq _ _ _ _ _ _ _ hm, if_pos h0, hE]

/-- C2: with every required document supplied, the fully successful submission
commits, in order, one pending application insert for the caller, then one
upload followed by one document insert per supplied document (under the path
`uid/appId/docType.ext`, the row pointing at the URL of the uploaded object), and
one completed payment insert for the service fee last; the trace holds exactly
one application insert and one payment insert; and for every backend outcome
the committed writes are a prefix of that trace, so a later step is attempted
only after the prior one succeeded. -/
theorem submit_writes_ordered (urlOf : String → String) (service : ServiceRow)
    (files : List (String × FileInfo)) (uid appId : String) (now : Nat)
    (hall : ∀ d ∈ service.required_documents, (lookupFile files d).isSome = true) :
    handleSubmit (fun _ => true) urlOf service files (some uid) appId now
        = (submitTrace urlOf service files uid appId now, none) ∧
    (mkPendingApp uid service.id appId).status = AppStatus.pending ∧
    (mkPendingApp uid service.id appId).citizen_id = uid ∧
    (mkPayment appId service.fee now).status = PayStatus.completed ∧
    (mkPayment appId service.fee now).amount = service.fee ∧
    (∀ d ∈ service.required_documents, ∃ f pre post,
      lookupFile files d = some f ∧
      docEvents urlOf uid appId files
        = pre ++ WriteEv.uploadFile (docPath uid appId d f) ::
            WriteEv.insertDocument
              { application_id := appId, file_name := f.name,
                file_url := urlOf (docPath uid appId d f), doc_type := d } :: post) ∧
    (submitTrace urlOf service files uid appId now).countP WriteEv.isApplicationInsert = 1 ∧
    (submitTrace urlOf service files uid appId now).countP WriteEv.isPaymentInsert = 1 ∧
    (submitTrace urlOf service files uid appId now).countP WriteEv.isDocumentInsert
        = files.length ∧
    (∀ ok : Nat → Bool, ∃ n,
      (handleSubmit ok urlOf service files (some uid) appId now).1
        = (submitTrace urlOf service files uid appId now).take n) := by
  have hm : missingDocs service files = [] := missing_nil_of_all service files hall
  have hcnt := docEvents_counts urlOf uid appId files
  refine ⟨?_, rfl, rfl, rfl, rfl, ?_, ?_, ?_, ?_, ?_⟩
  · rw [handleSubmit_eq _ _ _ _ _ _ _ hm, docLoop_allOk]
    simp [submitTrace]
  · intro d hd
    obtain ⟨f, hc⟩ := Option.isSome_iff_exists.mp (hall d hd)
    have hmem := lookupFile_mem files d f hc
    obtain ⟨pre, post, hp⟩ := flatMap_mem_decomp (entryEvents urlOf uid appId) files (d, f) hmem
    refine ⟨f, pre, post, hc, ?_⟩
    simpa [docEvents, entryEvents] using hp
  · simp [submitTrace, List.countP_cons, List.countP_append,
      WriteEv.isApplicationInsert, hcnt.1]
  · simp [submitTrace, List.countP_cons, List.countP_append,
      WriteEv.isPaymentInsert, hcnt.2.1]
  · simp [submitTrace, List.countP_cons, List.countP_append,
      WriteEv.isDocumentInsert, hcnt.2.2]
  · intro ok
    by_cases h0 : ok 0
    · rcases hE : docLoop ok urlOf uid appId 1 files with ⟨evs, err, j⟩
      have hT := docLoop_take ok urlOf uid appId files 1
      rw [hE] at hT
      obtain ⟨n, hn, hevs'⟩ := hT
      have hevs : evs = (docEvents urlOf uid appId files).take n := hevs'
      cases err with
      | some e =>
          refine ⟨n + 1, ?_⟩
          rw [handleSubmit_doc_err ok urlOf service files uid appId now evs e j hm h0 hE]
          have hz : n + 1 - (WriteEv.insertApplication (mkPendingApp uid service.id appId) ::
              docEvents urlOf uid appId files).length = 0 := by
            simp only [List.length_cons]
            omega
          simp only [submitTrace, List.take_append_eq_append_take, hz, List.take_zero,
            List.append_nil, List.take_succ_cons, hevs]
      | none =>
          have hfull : evs = docEvents urlOf uid appId files := by
            have h := docLoop_err_none ok urlOf uid appId files 1
            rw [hE] at h
            exact h rfl
          rw [handleSubmit_doc_ok ok urlOf service files uid appId now evs j hm h0 hE]
          by_cases hj : ok j
          · refine ⟨(submitTrace urlOf service files uid appId now).length, ?_⟩
            rw [if_pos hj, List.take_length]
            simp [submitTrace, hfull]
          · refine ⟨(docEvents urlOf uid appId files).length + 1, ?_⟩
            rw [if_neg hj]
            have hz : (docEvents urlOf uid appId files).length + 1 -
                (WriteEv.insertApplication (mkPendingApp uid service.id appId) ::
                  docEvents urlOf uid appId files).length = 0 := by
              simp only [List.length_cons]
              omega
            simp only [submitTrace, List.take_append_eq_append_take, hz, List.take_zero,
              List.append_nil, List.take_succ_cons, List.take_length, hfull]
    · refine ⟨0, ?_⟩
      rw [handleSubmit_app_fail ok urlOf service files uid appId now hm
        (Bool.not_eq_true _ ▸ by simpa using h0)]
      simp

/-- Both required documents of `svcB` supplied. -/
def filesC : List (String × FileInfo) := [("D1", ⟨"d1.pdf"⟩), ("D2", ⟨"d2.png"⟩)]

/-- Witness for C2: with both documents supplied the successful submission
produces the full ordered trace and no error. -/
theorem submit_writes_ordered_witness :
    (∀ d ∈ svcB.required_documents, (lookupFile filesC d).isSome = true) ∧
    handleSubmit (fun _ => true) (fun p => p) svcB filesC (some "u1") "a1" 0
      = (submitTrace (fun p => p) svcB filesC "u1" "a1" 0, none) :=
  ⟨by decide,
   (submit_writes_ordered (fun p => p) svcB filesC "u1" "a1" 0 (by decide)).1⟩

/-! ## Role routing: `Index.tsx` and the role selector page -/

/-- Client-facing routes of `App.tsx`. -/
inductive Route
  | auth
  | citizenDash
  | officerDash
  | adminDash
  | selectRole
  | root
deriving DecidableEq, Repr

/-- The `switch (roles[0])` of `checkAuth` in `Index.tsx` (single-role case). -/
def roleDashRoute : Role → Route
  | Role.citizen => Route.citizenDash
  | Role.officer => Route.officerDash
  | Role.admin => Route.adminDash

/-- Function `checkAuth` in `Index.tsx`: no session goes to `/auth`; zero roles to
`/auth`; one role to the dashboard of that role; several roles to `/select-role`.
The step performs reads only; it is modelled as a pure function of the
session and the fetched role list. -/
def checkAuthRoute (session : Option String) (roles : List Role) : Route :=
  match session with
  | none => Route.auth
  | some _ =>
    match roles with
    | [] => Route.auth
    | [r] => roleDashRoute r
    | _ => Route.selectRole

/-- Function `redirectToRole` in the role selector page: citizen goes to `/`, officer
to `/officer`, admin to `/admin`. -/
def redirectToRole : Role → Route
  | Role.citizen => Route.root
  | Role.officer => Route.officerDash
  | Role.admin => Route.adminDash

/-- C5: the routing entry point sends a missing session and an empty role set
to the authentication route, auto-redirects exactly one role to its dashboard,
and sends more than one role to the role selector; it is a pure
read-then-branch with no write. -/
theorem index_routing :
    (∀ roles, checkAuthRoute none roles = Route.auth) ∧
    (∀ sess : String, checkAuthRoute (some sess) [] = Route.auth) ∧
    (∀ sess : String,
      checkAuthRoute (some sess) [Role.citizen] = Route.citizenDash ∧
      checkAuthRoute (some sess) [Role.officer] = Route.officerDash ∧
      checkAuthRoute (some sess) [Role.admin] = Route.adminDash) ∧
    (∀ (sess : String) (r₁ r₂ : Role) (rest : List Role),
      checkAuthRoute (some sess) (r₁ :: r₂ :: rest) = Route.selectRole) :=
  ⟨fun _ => rfl, fun _ => rfl, fun _ => ⟨rfl, rfl, rfl⟩, fun _ _ _ _ => rfl⟩

/-- C6 evaluation: a multi-role user is shown the selector, but choosing
citizen navigates to `/`, and the root route sends a multi-role user straight
back to `/select-role`, so the citizen dashboard is never reached; officer and
admin choices do land on their dashboards. -/
theorem role_selector_citizen_loops :
    redirectToRole Role.citizen = Route.root ∧
    checkAuthRoute (some "sess") [Role.citizen, Role.officer] = Route.selectRole ∧
    Route.selectRole ≠ Route.citizenDash ∧
    redirectToRole Role.officer = Route.officerDash ∧
    redirectToRole Role.admin = Route.adminDash :=
  ⟨rfl, rfl, by decide, rfl, rfl⟩

/-! ## Row-level policies (the migration file) -/

/-- The relational state the policies are evaluated against. -/
structure DB where
  profiles : List ProfileRow
  user_roles : List (String × Role)
  applications : List AppRow
  documents : List DocumentRow
  payments : List PaymentRow
deriving Repr

/-- Function `public.has_role`: an exists-check on `user_roles`. -/
def has_role (db : DB) (uid : String) (r : Role) : Bool :=
  decide ((uid, r) ∈ db.user_roles)

/-- The OR of the two SELECT policies on `applications`: own row, or caller
holds officer or admin. -/
def canSelectApplication (db : DB) (uid : String) (a : AppRow) : Bool :=
  decide (a.citizen_id = uid) || has_role db uid Role.officer || has_role db uid Role.admin

/-- The rows a `select` on `applications` returns to `uid`. -/
def visibleApplications (db : DB) (uid : String) : List AppRow :=
  db.applications.filter (canSelectApplication db uid)

/-- The INSERT policy "Citizens can create applications":
`WITH CHECK (auth.uid() = citizen_id)` — it carries no role predicate. -/
def canInsertApplication (uid : String) (a : AppRow) : Bool :=
  decide (a.citizen_id = uid)

/-- The UPDATE policy "Officers can update applications". -/
def canUpdateApplications (db : DB) (uid : String) : Bool :=
  has_role db uid Role.officer || has_role db uid Role.admin

/-- A database whose only role row makes `off1` an officer, with one foreign
application on file. -/
def dbOfficer : DB :=
  { profiles := [], user_roles := [("off1", Role.officer)],
    applications := [{ id := "a7", citizen_id := "c2", service_id := "s1",
                       status := AppStatus.pending }],
    documents := [], payments := [] }

/-- An application row an officer would insert for themself. -/
def appOff : AppRow :=
  { id := "a9", citizen_id := "off1", service_id := "s1", status := AppStatus.pending }

/-- C4 counterexample: the claim that officer/admin callers may not insert
application rows is false — the insert policy checks only
`citizen_id = auth.uid()`, so an officer may insert a row for themself. -/
theorem applications_insert_not_role_gated :
    ¬ (∀ (db : DB) (uid : String) (a : AppRow),
        (has_role db uid Role.officer || has_role db uid Role.admin) = true →
        canInsertApplication uid a = false) := by
  intro h
  exact absurd (h dbOfficer "off1" appOff (by decide)) (by decide)

/-- C4 (amended): reads return own rows to a caller whose every role is
citizen and all rows to officer/admin; inserts are allowed exactly when
`citizen_id` equals the caller — for every caller, role-independently — and
updates are allowed exactly for officer/admin. -/
theorem applications_policy (db : DB) (uid : String) :
    ((∀ p ∈ db.user_roles, p.1 = uid → p.2 = Role.citizen) →
      visibleApplications db uid = db.applications.filter (fun a => a.citizen_id = uid)) ∧
    ((has_role db uid Role.officer = true ∨ has_role db uid Role.admin = true) →
      visibleApplications db uid = db.applications) ∧
    (∀ a : AppRow, canInsertApplication uid a = true ↔ a.citizen_id = uid) ∧
    (canUpdateApplications db uid = true ↔
      (has_role db uid Role.officer = true ∨ has_role db uid Role.admin = true)) := by
  refine ⟨?_, ?_, ?_, ?_⟩
  · intro h
    have ho : has_role db uid Role.officer = false := by
      cases hob : has_role db uid Role.officer with
      | false => rfl
      | true => exact absurd (h _ (of_decide_eq_true hob) rfl) (by simp)
    have ha : has_role db uid Role.admin = false := by
      cases hab : has_role db uid Role.admin with
      | false => rfl
      | true => exact absurd (h _ (of_decide_eq_true hab) rfl) (by simp)
    simp only [visibleApplications]
    exact List.filter_congr (fun a _ => by simp [canSelectApplication, ho, ha])
  · intro h
    rcases h with h | h <;> simp [visibleApplications, canSelectApplication, h]
  · intro a
    simp [canInsertApplication]
  · simp [canUpdateApplications, Bool.or_eq_true]

/-- A database where `c1` is a citizen owning one of two applications. -/
def dbCitizen : DB :=
  { profiles := [], user_roles := [("c1", Role.citizen)],
    applications :=
      [{ id := "a1", citizen_id := "c1", service_id := "s1", status := AppStatus.pending },
       { id := "a7", citizen_id := "c2", service_id := "s1", status := AppStatus.pending }],
    documents := [], payments := [] }

/-- Witness for the amended C4 at concrete inputs. -/
theorem applications_policy_witness :
    visibleApplications dbCitizen "c1"
        = dbCitizen.applications.filter (fun a => a.citizen_id = "c1") ∧
    visibleApplications dbOfficer "off1" = dbOfficer.applications :=
  ⟨(applications_policy dbCitizen "c1").1 (by decide),
   (applications_policy dbOfficer "off1").2.1 (Or.inl (by decide))⟩

/-- The INSERT policy on `documents`: a join-exists predicate requiring the
referenced application to belong to the caller. -/
def canInsertDocument (db : DB) (uid : String) (d : DocumentRow) : Bool :=
  db.applications.any (fun a => decide (a.id = d.application_id) && decide (a.citizen_id = uid))

/-- A document insert as the policy layer applies it: committed when the
policy accepts, the table untouched otherwise. -/
def insertDocumentRLS (db : DB) (uid : String) (d : DocumentRow) : DB :=
  if canInsertDocument db uid d then { db with documents := db.documents ++ [d] } else db

/-- C8: a document insert by a citizen succeeds exactly when the referenced
application belongs to the caller, and a rejected insert leaves the documents
table unchanged. -/
theorem document_insert_policy (db : DB) (uid : String) (d : DocumentRow)
    (_hc : has_role db uid Role.citizen = true) :
    (canInsertDocument db uid d = true ↔
      ∃ a ∈ db.applications, a.id = d.application_id ∧ a.citizen_id = uid) ∧
    (canInsertDocument db uid d = false → insertDocumentRLS db uid d = db) ∧
    (canInsertDocument db uid d = true →
      (insertDocumentRLS db uid d).documents = db.documents ++ [d]) := by
  refine ⟨?_, ?_, ?_⟩
  · simp [canInsertDocument, List.any_eq_true]
  · intro h
    simp [insertDocumentRLS, h]
  · intro h
    simp [insertDocumentRLS, h]

/-- A document pointing at the application `a1` owned by `c1`. -/
def docW : DocumentRow :=
  { application_id := "a1", file_name := "d1.pdf", file_url := "u", doc_type := "D1" }

/-- A document pointing at the foreign application `a7`. -/
def docX : DocumentRow :=
  { application_id := "a7", file_name := "d1.pdf", file_url := "u", doc_type := "D1" }

/-- Witness for C8 at concrete inputs: the owned insert is accepted and
committed; the foreign one is rejected and leaves the table unchanged. -/
theorem document_insert_policy_witness :
    canInsertDocument dbCitizen "c1" docW = true ∧
    (insertDocumentRLS dbCitizen "c1" docW).documents = dbCitizen.documents ++ [docW] ∧
    insertDocumentRLS dbCitizen "c1" docX = dbCitizen :=
  ⟨(document_insert_policy dbCitizen "c1" docW (by decide)).1.mpr (by decide),
   (document_insert_policy dbCitizen "c1" docW (by decide)).2.2
     ((document_insert_policy dbCitizen "c1" docW (by decide)).1.mpr (by decide)),
   (document_insert_policy dbCitizen "c1" docX (by decide)).2.1 (by decide)⟩

/-! ## Signup trigger: `handle_new_user` in the migration -/

/-- The `auth.users` row the trigger fires on. -/
structure NewUser where
  id : String
  email : String
  meta_full_name : Option String
deriving Repr

/-- Trigger `handle_new_user`: in one trigger body (one transaction), insert the
profile for the new identity (name from the signup metadata, defaulted to
"User") and assign the default citizen role. -/
def handle_new_user (db : DB) (u : NewUser) : DB :=
  { db with
    profiles := db.profiles ++
      [{ id := u.id, email := u.email, full_name := u.meta_full_name.getD "User" }],
    user_roles := db.user_roles ++ [(u.id, Role.citizen)] }

/-- C7: for a fresh identity, the signup trigger creates exactly one role
assignment, with role citizen, and exactly one profile whose id equals the
identity id, both within the single trigger transition. -/
theorem signup_single_citizen_role (db : DB) (u : NewUser)
    (hp : ∀ p ∈ db.profiles, p.id ≠ u.id)
    (hr : ∀ p ∈ db.user_roles, p.1 ≠ u.id) :
    ((handle_new_user db u).user_roles.filter (fun p => p.1 = u.id))
        = [(u.id, Role.citizen)] ∧
    ((handle_new_user db u).profiles.filter (fun p => p.id = u.id))
        = [{ id := u.id, email := u.email, full_name := u.meta_full_name.getD "User" }] ∧
    (handle_new_user db u).profiles = db.profiles ++
        [{ id := u.id, email := u.email, full_name := u.meta_full_name.getD "User" }] ∧
    (handle_new_user db u).user_roles = db.user_roles ++ [(u.id, Role.citizen)] := by
  refine ⟨?_, ?_, rfl, rfl⟩
  · have h0 : db.user_roles.filter (fun p => decide (p.1 = u.id)) = [] := by
      rw [List.filter_eq_nil_iff]
      intro p hp'
      simp [hr p hp']
    simp [handle_new_user, List.filter_append, h0]
  · have h0 : db.profiles.filter (fun p => decide (p.id = u.id)) = [] := by
      rw [List.filter_eq_nil_iff]
      intro p hp'
      simp [hp p hp']
    simp [handle_new_user, List.filter_append, h0]

/-- An empty database. -/
def dbEmpty : DB :=
  { profiles := [], user_roles := [], applications := [], documents := [], payments := [] }

/-- A concrete signup. -/
def uNew : NewUser := { id := "n1", email := "n@example.com", meta_full_name := some "N One" }

/-- Witness for C7 at concrete inputs. -/
theorem signup_single_citizen_role_witness :
    ((handle_new_user dbEmpty uNew).user_roles.filter (fun p => p.1 = uNew.id))
        = [(uNew.id, Role.citizen)] ∧
    (handle_new_user dbEmpty uNew).user_roles
        = dbEmpty.user_roles ++ [(uNew.id, Role.citizen)] :=
  ⟨(signup_single_citizen_role dbEmpty uNew (by decide) (by decide)).1,
   (signup_single_citizen_role dbEmpty uNew (by decide) (by decide)).2.2.2⟩

/-! ## Admin statistics: `fetchStats` in the admin dashboard -/

/-- The aggregate the admin dashboard displays. -/
structure Stats where
  totalApplications : Nat
  pendingApplications : Nat
  approvedApplications : Nat
  rejectedApplications : Nat
  totalRevenue : ℚ
  totalCitizens : Nat
deriving Repr

/-- Function `fetchStats`: each fetched application row contributes its status and the
joined service fee (absent when the join is null); counts are per-status
filters, revenue sums the fee over approved rows, total is the row count. -/
def fetchStats (apps : List (AppStatus × Option ℚ)) (citizenCount : Nat) : Stats :=
  { totalApplications := apps.length
    pendingApplications := (apps.filter (fun a => a.1 = AppStatus.pending)).length
    approvedApplications := (apps.filter (fun a => a.1 = AppStatus.approved)).length
    rejectedApplications := (apps.filter (fun a => a.1 = AppStatus.rejected)).length
    totalRevenue := (apps.filter (fun a => a.1 = AppStatus.approved)).foldl
      (fun s a => s + a.2.getD 0) 0
    totalCitizens := citizenCount }

/-- The status of a row the dashboard shows in no bucket. -/
def otherStatus (a : AppStatus × Option ℚ) : Bool :=
  decide (a.1 = AppStatus.under_review) || decide (a.1 = AppStatus.additional_info_required)

lemma status_filter_sum (apps : List (AppStatus × Option ℚ)) :
    (apps.filter (fun a => a.1 = AppStatus.pending)).length +
      (apps.filter (fun a => a.1 = AppStatus.approved)).length +
      (apps.filter (fun a => a.1 = AppStatus.rejected)).length +
      apps.countP otherStatus = apps.length := by
  induction apps with
  | nil => simp
  | cons e rest ih =>
      obtain ⟨st, fee⟩ := e
      cases st <;> simp [otherStatus, List.countP_cons] <;> omega

/-- C10: the three displayed buckets sum to at most the total, with equality
exactly when no fetched row is `under_review` or `additional_info_required`;
rows in those statuses count toward the total but toward no bucket. -/
theorem admin_stats_buckets (apps : List (AppStatus × Option ℚ)) (citizenCount : Nat) :
    (fetchStats apps citizenCount).pendingApplications +
        (fetchStats apps citizenCount).approvedApplications +
        (fetchStats apps citizenCount).rejectedApplications ≤
      (fetchStats apps citizenCount).totalApplications ∧
    ((fetchStats apps citizenCount).pendingApplications +
        (fetchStats apps citizenCount).approvedApplications +
        (fetchStats apps citizenCount).rejectedApplications =
      (fetchStats apps citizenCount).totalApplications ↔
      ∀ a ∈ apps, a.1 ≠ AppStatus.under_review ∧ a.1 ≠ AppStatus.additional_info_required) := by
  have hs := status_filter_sum apps
  constructor
  · simp only [fetchStats]
    omega
  · simp only [fetchStats]
    constructor
    · intro h
      have hz : apps.countP otherStatus = 0 := by omega
      rw [List.countP_eq_zero] at hz
      intro a ha
      have h1 := hz a ha
      simp [otherStatus, not_or] at h1
      exact h1
    · intro h
      have hz : apps.countP otherStatus = 0 := by
        rw [List.countP_eq_zero]
        intro a ha
        simp [otherStatus, (h a ha).1, (h a ha).2]
      omega

end Portal
